import Mathlib

/-
Verification of the shape-aggregation kernel (cleancode) against its
specification.

The C++ sources compute shape areas and corner-weighted areas through three
dispatch strategies (virtual calls in clean_code.cpp, a tagged switch in
switch_code.cpp, a coefficient table in table_code.cpp) and through a
vectorized reduction engine over columnar collectors
(optimized_clean_code.cpp, shapes.h).

Arithmetic model.  All C++ `f32` values are embedded as rationals.  Every
source function is parametric in an operation structure `FOps`; two
instantiations are used:
  * `f32Ops`  : each operation rounds its exact rational result to the
    nearest IEEE-754 binary32 significand (24 bits, round-to-nearest,
    ties-to-even), with unbounded exponent range (no overflow/underflow/
    subnormals — all inputs considered by the concrete theorems stay far
    inside the finite range, and equalities of identical operation trees
    are unaffected by range limits).  FMA rounds once, as the hardware
    `_mm256_fmadd_ps` does.
  * `exactOps`: exact rational arithmetic — the reassociation-insensitive
    reading the specification itself mandates for cross-variant equalities
    ("answers agree only to a small relative tolerance, never bit-exact").
-/

-- The Batteries rational operations are marked irreducible, which blocks
-- kernel evaluation by `decide`; restore the default reducibility.
attribute [local semireducible] Rat.add Rat.mul Rat.inv Rat.sub

/-! ## IEEE-754 binary32 rounding model -/

/-- Floor of the base-2 logarithm, by structural recursion on a fuel bound
(kernel-computable, unlike `Nat.log2`). -/
def log2fuel : Nat → Nat → Nat
  | 0, _ => 0
  | fuel + 1, n => if 2 ≤ n then log2fuel fuel (n / 2) + 1 else 0

/-- Floor of the base-2 logarithm of a natural number (0 for inputs 0, 1). -/
def nlog2 (n : Nat) : Nat := log2fuel n n

/-- The rational 2^k for an integer exponent. -/
def pow2 (k : Int) : ℚ := if 0 ≤ k then ((2 : ℚ)) ^ k.toNat else 1 / ((2 : ℚ)) ^ (-k).toNat

/-- For a positive rational a, the integer e with 2^e ≤ a < 2^(e+1). -/
def exp2Floor (a : ℚ) : Int :=
  let k : Int := Int.ofNat (nlog2 a.num.natAbs) - Int.ofNat (nlog2 a.den)
  if a < pow2 k then k - 1 else k

/-- Round a non-negative rational to a 24-bit binary significand,
round-to-nearest with ties to even. -/
def roundSig (a : ℚ) : ℚ :=
  let e := exp2Floor a
  let scaled := a * pow2 (23 - e)
  let n : Int := scaled.num / (scaled.den : Int)
  let r := scaled - (n : ℚ)
  let m : Int := if r < 1 / 2 then n else if 1 / 2 < r then n + 1 else if n % 2 = 0 then n else n + 1
  (m : ℚ) * pow2 (e - 23)

/-- IEEE-754 binary32 rounding (round to nearest, ties to even; unbounded
exponent range as described in the header comment). -/
def rnd32 (q : ℚ) : ℚ := if q < 0 then -(roundSig (-q)) else roundSig q

/-- A rational is (the value of) a binary32 number iff rounding fixes it. -/
abbrev Repr32 (x : ℚ) : Prop := rnd32 x = x

/-! ## Arithmetic operation structures -/

/-- The floating-point operations a strategy is evaluated with.  The C++
sources use f32 `+`, `*`, `/`, the u32→f32 cast, and (in the reduction
engine) a fused multiply-add. -/
structure FOps where
  add : ℚ → ℚ → ℚ
  mul : ℚ → ℚ → ℚ
  div : ℚ → ℚ → ℚ
  fma : ℚ → ℚ → ℚ → ℚ
  ofNat : Nat → ℚ

/-- Faithful binary32 arithmetic: every operation rounds its exact result
once (FMA rounds once over a*b+c, as `_mm256_fmadd_ps` does). -/
def f32Ops : FOps where
  add a b := rnd32 (a + b)
  mul a b := rnd32 (a * b)
  div a b := rnd32 (a / b)
  fma a b c := rnd32 (a * b + c)
  ofNat n := rnd32 (n : ℚ)

/-- Exact rational arithmetic (the reassociation-insensitive reading). -/
def exactOps : FOps where
  add a b := a + b
  mul a b := a * b
  div a b := a / b
  fma a b c := a * b + c
  ofNat n := (n : ℚ)

/-! ## shapes.h -/

/-- The value of the f32 constant `Pi32 = 3.14159265359f` (the literal
rounded to binary32), as an exact rational: 13176795 * 2^-22. -/
def Pi32 : ℚ := 13176795 / 4194304

/-- The four concrete shape classes of the OOP strategy (square, rectangle,
triangle, circle from shapes.h), as one inductive value type. -/
inductive shape_base where
  | square (Side : ℚ)
  | rectangle (Width Height : ℚ)
  | triangle (Base Height : ℚ)
  | circle (Radius : ℚ)

/-- The virtual `Area()` methods: Side*Side, Width*Height,
0.5f*Base*Height, Pi32*Radius*Radius (left-associated as in C++). -/
def shape_base.Area (ops : FOps) : shape_base → ℚ
  | .square Side => ops.mul Side Side
  | .rectangle Width Height => ops.mul Width Height
  | .triangle Base Height => ops.mul (ops.mul (1 / 2) Base) Height
  | .circle Radius => ops.mul (ops.mul Pi32 Radius) Radius

/-- The virtual `CornerCount()` methods (u32 results). -/
def shape_base.CornerCount : shape_base → Nat
  | .square _ => 4
  | .rectangle _ _ => 4
  | .triangle _ _ => 3
  | .circle _ => 0

/-- The flat record `shape_union {shape_type Type; f32 Width; f32 Height}`.
The `Type` field is named `TypeTag` here (`Type` is reserved in Lean); as a
u32-backed enum it can hold any u32 value, hence `Nat`.  The valid tags are
0 = Shape_Square, 1 = Shape_Rectangle, 2 = Shape_Triangle, 3 = Shape_Circle
(Shape_Count = 4). -/
structure shape_union where
  TypeTag : Nat
  Width : ℚ
  Height : ℚ

/-- `AreaCollector` state: the `areas` vector. -/
structure AreaCollector where
  areas : List ℚ

/-- `CornerCollector` state: the parallel `areas` and `weights` vectors. -/
structure CornerCollector where
  areas : List ℚ
  weights : List ℚ

/-- `AreaCollector::addShape`: pushes the shape's area and returns the same
shape pointer (modelled by state passing; the result pairs the returned
shape with the updated collector). -/
def AreaCollector.addShape (ops : FOps) (c : AreaCollector) (shape : shape_base) :
    shape_base × AreaCollector :=
  (shape, { areas := c.areas ++ [shape_base.Area ops shape] })

/-- `CornerCollector::addShape`: pushes the area and the precomputed weight
1.0f / (1.0f + (f32)corner_count), returning the same shape. -/
def CornerCollector.addShape (ops : FOps) (c : CornerCollector) (shape : shape_base) :
    shape_base × CornerCollector :=
  let area := shape_base.Area ops shape
  let corner_count := shape_base.CornerCount shape
  let weight := ops.div 1 (ops.add 1 (ops.ofNat corner_count))
  (shape, { areas := c.areas ++ [area], weights := c.weights ++ [weight] })

/-- A sequence of `CornerCollector::addShape` calls (used to state the
parallel-array invariant over arbitrary call sequences). -/
def addShapes (ops : FOps) (c : CornerCollector) (shapes : List shape_base) : CornerCollector :=
  shapes.foldl (fun c s => (CornerCollector.addShape ops c s).2) c

/-! ## The 4-accumulator loop shared by all *4 variants

Every `...4` function in the sources has the same loop: `Count = ShapeCount/4;
while (Count--) { Accum0 += g(Shapes[0]); ...; Accum3 += g(Shapes[3]);
Shapes += 4; }`, differing only in the per-element expression g.  `loop4`
models that loop, iteration count passed explicitly (the C++ loop runs
exactly ShapeCount/4 iterations).  The last match arm is unreachable when
4*n is at most the list length, as every caller guarantees. -/

def loop4 (ops : FOps) (g : α → ℚ) : Nat → List α → ℚ × ℚ × ℚ × ℚ → ℚ × ℚ × ℚ × ℚ
  | 0, _, a => a
  | n + 1, x0 :: x1 :: x2 :: x3 :: rest, (A0, A1, A2, A3) =>
      loop4 ops g n rest (ops.add A0 (g x0), ops.add A1 (g x1), ops.add A2 (g x2), ops.add A3 (g x3))
  | _ + 1, _, a => a

/-! ## clean_code.cpp (OOP strategy) -/

/-- `TotalAreaVTBL`: single-accumulator left fold of `Shapes[i]->Area()`. -/
def TotalAreaVTBL (ops : FOps) (Shapes : List shape_base) : ℚ :=
  List.foldl (fun Accum s => ops.add Accum (shape_base.Area ops s)) 0 Shapes

/-- `TotalAreaVTBL4`: 4-accumulator variant, final combine
Accum0+Accum1+Accum2+Accum3 (left-associated). -/
def TotalAreaVTBL4 (ops : FOps) (Shapes : List shape_base) : ℚ :=
  let r := loop4 ops (shape_base.Area ops) (Shapes.length / 4) Shapes (0, 0, 0, 0)
  ops.add (ops.add (ops.add r.1 r.2.1) r.2.2.1) r.2.2.2

/-- The per-element expression of `CornerAreaVTBL` and `CornerAreaVTBL4`:
(1.0f / (1.0f + (f32)Shapes[i]->CornerCount())) * Shapes[i]->Area(). -/
def cornerContribVTBL (ops : FOps) (s : shape_base) : ℚ :=
  ops.mul (ops.div 1 (ops.add 1 (ops.ofNat (shape_base.CornerCount s))))
    (shape_base.Area ops s)

/-- `CornerAreaVTBL`: single-accumulator left fold of `cornerContribVTBL`. -/
def CornerAreaVTBL (ops : FOps) (Shapes : List shape_base) : ℚ :=
  List.foldl (fun Accum s => ops.add Accum (cornerContribVTBL ops s)) 0 Shapes

/-- `CornerAreaVTBL4`: 4-accumulator variant of `CornerAreaVTBL`. -/
def CornerAreaVTBL4 (ops : FOps) (Shapes : List shape_base) : ℚ :=
  let r := loop4 ops (cornerContribVTBL ops) (Shapes.length / 4) Shapes (0, 0, 0, 0)
  ops.add (ops.add (ops.add r.1 r.2.1) r.2.2.1) r.2.2.2

/-! ## switch_code.cpp (tagged-switch strategy) -/

/-- `GetAreaSwitch`: switch on Shape.Type with a `default: return 0.0f`. -/
def GetAreaSwitch (ops : FOps) (Shape : shape_union) : ℚ :=
  match Shape.TypeTag with
  | 0 => ops.mul Shape.Width Shape.Width
  | 1 => ops.mul Shape.Width Shape.Height
  | 2 => ops.mul (ops.mul (1 / 2) Shape.Width) Shape.Height
  | 3 => ops.mul (ops.mul Pi32 Shape.Width) Shape.Width
  | _ => 0

/-- `GetCornerCountSwitch`: switch on the type tag with a `default: return 0`. -/
def GetCornerCountSwitch : Nat → Nat
  | 0 => 4
  | 1 => 4
  | 2 => 3
  | 3 => 0
  | _ => 0

/-- `TotalAreaSwitch`: single-accumulator left fold of `GetAreaSwitch`. -/
def TotalAreaSwitch (ops : FOps) (Shapes : List shape_union) : ℚ :=
  List.foldl (fun Accum u => ops.add Accum (GetAreaSwitch ops u)) 0 Shapes

/-- `TotalAreaSwitch4`: 4-accumulator variant. -/
def TotalAreaSwitch4 (ops : FOps) (Shapes : List shape_union) : ℚ :=
  let r := loop4 ops (GetAreaSwitch ops) (Shapes.length / 4) Shapes (0, 0, 0, 0)
  ops.add (ops.add (ops.add r.1 r.2.1) r.2.2.1) r.2.2.2

/-- The per-element expression of `CornerAreaSwitch` and `CornerAreaSwitch4`:
(1.0f / (1.0f + (f32)GetCornerCountSwitch(Shapes[i].Type))) * GetAreaSwitch(Shapes[i]). -/
def cornerContribSwitch (ops : FOps) (u : shape_union) : ℚ :=
  ops.mul (ops.div 1 (ops.add 1 (ops.ofNat (GetCornerCountSwitch u.TypeTag))))
    (GetAreaSwitch ops u)

/-- `CornerAreaSwitch`: single-accumulator left fold of `cornerContribSwitch`. -/
def CornerAreaSwitch (ops : FOps) (Shapes : List shape_union) : ℚ :=
  List.foldl (fun Accum u => ops.add Accum (cornerContribSwitch ops u)) 0 Shapes

/-- `CornerAreaSwitch4`: 4-accumulator variant of `CornerAreaSwitch`. -/
def CornerAreaSwitch4 (ops : FOps) (Shapes : List shape_union) : ℚ :=
  let r := loop4 ops (cornerContribSwitch ops) (Shapes.length / 4) Shapes (0, 0, 0, 0)
  ops.add (ops.add (ops.add r.1 r.2.1) r.2.2.1) r.2.2.2

/-! ## table_code.cpp (coefficient-table strategy)

The two static tables have exactly `Shape_Count = 4` entries.  Reading them
with an out-of-range tag is an out-of-bounds access — undefined behavior in
the C++ source — modelled by an unconstrained parameter `oob` giving the
value such a read yields. -/

/-- `AreaCTable[4] = {1.0f, 1.0f, 0.5f, Pi32}`, indexed by the type tag;
an index outside 0..3 is an out-of-bounds read, yielding `oob`. -/
def AreaCTable (oob : Nat → ℚ) : Nat → ℚ
  | 0 => 1
  | 1 => 1
  | 2 => 1 / 2
  | 3 => Pi32
  | t => oob t

/-- `CornerAreaCTable[4] = {1.0f/(1.0f+4.0f), 1.0f/(1.0f+4.0f),
0.5f/(1.0f+3.0f), Pi32}`; the constant expressions are f32 arithmetic
(performed by the given operation structure), and an index outside 0..3 is
an out-of-bounds read. -/
def CornerAreaCTable (ops : FOps) (oob : Nat → ℚ) : Nat → ℚ
  | 0 => ops.div 1 (ops.add 1 4)
  | 1 => ops.div 1 (ops.add 1 4)
  | 2 => ops.div (1 / 2) (ops.add 1 3)
  | 3 => Pi32
  | t => oob t

/-- `GetAreaUnion`: AreaCTable[Shape.Type] * Shape.Width * Shape.Height
(left-associated). -/
def GetAreaUnion (ops : FOps) (oob : Nat → ℚ) (Shape : shape_union) : ℚ :=
  ops.mul (ops.mul (AreaCTable oob Shape.TypeTag) Shape.Width) Shape.Height

/-- `GetCornerAreaUnion`: CornerAreaCTable[Shape.Type] * Shape.Width * Shape.Height. -/
def GetCornerAreaUnion (ops : FOps) (oob : Nat → ℚ) (Shape : shape_union) : ℚ :=
  ops.mul (ops.mul (CornerAreaCTable ops oob Shape.TypeTag) Shape.Width) Shape.Height

/-- `TotalAreaUnion`: single-accumulator left fold of `GetAreaUnion`. -/
def TotalAreaUnion (ops : FOps) (oob : Nat → ℚ) (Shapes : List shape_union) : ℚ :=
  List.foldl (fun Accum u => ops.add Accum (GetAreaUnion ops oob u)) 0 Shapes

/-- `TotalAreaUnion4`: 4-accumulator variant. -/
def TotalAreaUnion4 (ops : FOps) (oob : Nat → ℚ) (Shapes : List shape_union) : ℚ :=
  let r := loop4 ops (GetAreaUnion ops oob) (Shapes.length / 4) Shapes (0, 0, 0, 0)
  ops.add (ops.add (ops.add r.1 r.2.1) r.2.2.1) r.2.2.2

/-- `CornerAreaUnion`: single-accumulator left fold of `GetCornerAreaUnion`. -/
def CornerAreaUnion (ops : FOps) (oob : Nat → ℚ) (Shapes : List shape_union) : ℚ :=
  List.foldl (fun Accum u => ops.add Accum (GetCornerAreaUnion ops oob u)) 0 Shapes

/-- `CornerAreaUnion4`: 4-accumulator variant. -/
def CornerAreaUnion4 (ops : FOps) (oob : Nat → ℚ) (Shapes : List shape_union) : ℚ :=
  let r := loop4 ops (GetCornerAreaUnion ops oob) (Shapes.length / 4) Shapes (0, 0, 0, 0)
  ops.add (ops.add (ops.add r.1 r.2.1) r.2.2.1) r.2.2.2

/-! ## optimized_clean_code.cpp (vectorized Reduction Engine)

`__m256` vectors (8 f32 lanes) are modelled as 8-field records; the SIMD
intrinsics act lanewise.  Each `for` loop of the source is modelled by a
structurally recursive function taking its iteration count and starting
index explicitly; the counts are exactly those the C++ loop guards produce:
the 64-element bulk loop (`for (; i + 63 < size; i += 64)`) runs size/64
iterations leaving i = 64*(size/64); the 8-element remainder loop
(`for (; i + 7 < size; i += 8)`) then runs (size - i)/8 iterations; the
scalar tail loop handles the rest.  The prefetch hints have no effect on
values and are not modelled. -/

/-- An `__m256` value: 8 f32 lanes. -/
structure V8 where
  l0 : ℚ
  l1 : ℚ
  l2 : ℚ
  l3 : ℚ
  l4 : ℚ
  l5 : ℚ
  l6 : ℚ
  l7 : ℚ
  deriving DecidableEq

/-- An `__m128` value: 4 f32 lanes. -/
structure V4 where
  l0 : ℚ
  l1 : ℚ
  l2 : ℚ
  l3 : ℚ

/-- `_mm256_setzero_ps()`. -/
def zero8 : V8 := ⟨0, 0, 0, 0, 0, 0, 0, 0⟩

/-- `_mm256_add_ps`: lanewise f32 addition. -/
def vadd8 (ops : FOps) (a b : V8) : V8 :=
  ⟨ops.add a.l0 b.l0, ops.add a.l1 b.l1, ops.add a.l2 b.l2, ops.add a.l3 b.l3,
   ops.add a.l4 b.l4, ops.add a.l5 b.l5, ops.add a.l6 b.l6, ops.add a.l7 b.l7⟩

/-- `_mm256_fmadd_ps a b c`: lanewise a*b + c with a single rounding. -/
def fma8 (ops : FOps) (a b c : V8) : V8 :=
  ⟨ops.fma a.l0 b.l0 c.l0, ops.fma a.l1 b.l1 c.l1, ops.fma a.l2 b.l2 c.l2,
   ops.fma a.l3 b.l3 c.l3, ops.fma a.l4 b.l4 c.l4, ops.fma a.l5 b.l5 c.l5,
   ops.fma a.l6 b.l6 c.l6, ops.fma a.l7 b.l7 c.l7⟩

/-- `_mm256_loadu_ps(&xs[i])`: load 8 consecutive lanes.  Every load issued
by the engine is in bounds (the loop guards ensure i+7 < size), so the
default value of `getD` is never read. -/
def loadu8 (xs : List ℚ) (i : Nat) : V8 :=
  ⟨xs.getD i 0, xs.getD (i + 1) 0, xs.getD (i + 2) 0, xs.getD (i + 3) 0,
   xs.getD (i + 4) 0, xs.getD (i + 5) 0, xs.getD (i + 6) 0, xs.getD (i + 7) 0⟩

/-- The combine step both engine functions perform after the bulk loop,
exactly as written in the source: `sum0 += sum4; sum1 += sum5; sum2 += sum6;
sum3 += sum7;` then `sum0 += sum1; sum2 += sum3;` then `sum0 += sum2;`
(generic in the addition so that it can also be interpreted symbolically). -/
def combine8 (add : α → α → α) (s0 s1 s2 s3 s4 s5 s6 s7 : α) : α :=
  let t0 := add s0 s4
  let t1 := add s1 s5
  let t2 := add s2 s6
  let t3 := add s3 s7
  let u0 := add t0 t1
  let u2 := add t2 t3
  add u0 u2

/-- Modelled from the spec: "After the bulk loop, combine the 8 accumulators
pairwise: 8→4→2→1 (sum adjacent pairs each step)" — the first stage sums the
adjacent pairs (Accum0+Accum1), (Accum2+Accum3), (Accum4+Accum5),
(Accum6+Accum7), then the adjacent pairs of those four, then the final pair. -/
def combine8Adjacent (add : α → α → α) (s0 s1 s2 s3 s4 s5 s6 s7 : α) : α :=
  let t0 := add s0 s1
  let t1 := add s2 s3
  let t2 := add s4 s5
  let t3 := add s6 s7
  let u0 := add t0 t1
  let u1 := add t2 t3
  add u0 u1

/-- `_mm256_extractf128_ps(v, 1)`: the upper 4 lanes. -/
def extractHigh128 (v : V8) : V4 := ⟨v.l4, v.l5, v.l6, v.l7⟩

/-- `_mm256_castps256_ps128(v)`: the lower 4 lanes. -/
def castLow128 (v : V8) : V4 := ⟨v.l0, v.l1, v.l2, v.l3⟩

/-- `_mm_add_ps`: lanewise f32 addition on 4 lanes. -/
def vadd4 (ops : FOps) (a b : V4) : V4 :=
  ⟨ops.add a.l0 b.l0, ops.add a.l1 b.l1, ops.add a.l2 b.l2, ops.add a.l3 b.l3⟩

/-- `_mm_hadd_ps a b` = [a0+a1, a2+a3, b0+b1, b2+b3]. -/
def hadd4 (ops : FOps) (a b : V4) : V4 :=
  ⟨ops.add a.l0 a.l1, ops.add a.l2 a.l3, ops.add b.l0 b.l1, ops.add b.l2 b.l3⟩

/-- The horizontal reduction both engine functions end with: split the
256-bit accumulator into halves, add them, then two `_mm_hadd_ps` steps,
then `_mm_cvtss_f32` (lane 0). -/
def horizontalSum (ops : FOps) (v : V8) : ℚ :=
  let high128 := extractHigh128 v
  let low128 := castLow128 v
  let sum128 := vadd4 ops high128 low128
  let sum128 := hadd4 ops sum128 sum128
  let sum128 := hadd4 ops sum128 sum128
  sum128.l0

/-- The 8 vector accumulators sum0..sum7. -/
structure Acc8 where
  s0 : V8
  s1 : V8
  s2 : V8
  s3 : V8
  s4 : V8
  s5 : V8
  s6 : V8
  s7 : V8

/-- All 8 accumulators zeroed. -/
def zeroAcc8 : Acc8 := ⟨zero8, zero8, zero8, zero8, zero8, zero8, zero8, zero8⟩

/-- The bulk loop of `TotalAreaCollector`: per iteration, 8 lanewise adds of
the 8 consecutive 8-lane chunks at offsets i, i+8, ..., i+56. -/
def bulkLoopT (ops : FOps) (areas : List ℚ) : Nat → Nat → Acc8 → Acc8
  | 0, _, acc => acc
  | n + 1, i, acc =>
      bulkLoopT ops areas n (i + 64)
        ⟨vadd8 ops acc.s0 (loadu8 areas i),
         vadd8 ops acc.s1 (loadu8 areas (i + 8)),
         vadd8 ops acc.s2 (loadu8 areas (i + 16)),
         vadd8 ops acc.s3 (loadu8 areas (i + 24)),
         vadd8 ops acc.s4 (loadu8 areas (i + 32)),
         vadd8 ops acc.s5 (loadu8 areas (i + 40)),
         vadd8 ops acc.s6 (loadu8 areas (i + 48)),
         vadd8 ops acc.s7 (loadu8 areas (i + 56))⟩

/-- The 8-element remainder loop of `TotalAreaCollector`. -/
def rem8LoopT (ops : FOps) (areas : List ℚ) : Nat → Nat → V8 → V8
  | 0, _, v => v
  | n + 1, i, v => rem8LoopT ops areas n (i + 8) (vadd8 ops v (loadu8 areas i))

/-- The scalar tail loop of `TotalAreaCollector`: `Accum += areas[i]`. -/
def tailLoopT (ops : FOps) (areas : List ℚ) : Nat → Nat → ℚ → ℚ
  | 0, _, Accum => Accum
  | n + 1, i, Accum => tailLoopT ops areas n (i + 1) (ops.add Accum (areas.getD i 0))

/-- `TotalAreaCollector`: the reduction engine in plain-sum mode over the
collector's `areas` array. -/
def TotalAreaCollector (ops : FOps) (collector : AreaCollector) : ℚ :=
  let areas := collector.areas
  let size := areas.length
  let acc := bulkLoopT ops areas (size / 64) 0 zeroAcc8
  let i1 := 64 * (size / 64)
  let sum0 := combine8 (vadd8 ops) acc.s0 acc.s1 acc.s2 acc.s3 acc.s4 acc.s5 acc.s6 acc.s7
  let sum0 := rem8LoopT ops areas ((size - i1) / 8) i1 sum0
  let i2 := i1 + 8 * ((size - i1) / 8)
  let Accum := horizontalSum ops sum0
  tailLoopT ops areas (size - i2) i2 Accum

/-- The bulk loop of `CornerAreaCollector`: per iteration, 8 lanewise FMAs
of area and weight chunks at offsets i, i+8, ..., i+56. -/
def bulkLoopC (ops : FOps) (areas weights : List ℚ) : Nat → Nat → Acc8 → Acc8
  | 0, _, acc => acc
  | n + 1, i, acc =>
      bulkLoopC ops areas weights n (i + 64)
        ⟨fma8 ops (loadu8 areas i) (loadu8 weights i) acc.s0,
         fma8 ops (loadu8 areas (i + 8)) (loadu8 weights (i + 8)) acc.s1,
         fma8 ops (loadu8 areas (i + 16)) (loadu8 weights (i + 16)) acc.s2,
         fma8 ops (loadu8 areas (i + 24)) (loadu8 weights (i + 24)) acc.s3,
         fma8 ops (loadu8 areas (i + 32)) (loadu8 weights (i + 32)) acc.s4,
         fma8 ops (loadu8 areas (i + 40)) (loadu8 weights (i + 40)) acc.s5,
         fma8 ops (loadu8 areas (i + 48)) (loadu8 weights (i + 48)) acc.s6,
         fma8 ops (loadu8 areas (i + 56)) (loadu8 weights (i + 56)) acc.s7⟩

/-- The 8-element remainder loop of `CornerAreaCollector` (FMA form). -/
def rem8LoopC (ops : FOps) (areas weights : List ℚ) : Nat → Nat → V8 → V8
  | 0, _, v => v
  | n + 1, i, v =>
      rem8LoopC ops areas weights n (i + 8)
        (fma8 ops (loadu8 areas i) (loadu8 weights i) v)

/-- The scalar tail loop of `CornerAreaCollector`:
`Accum += areas[i] * weights[i]` (separate multiply and add). -/
def tailLoopC (ops : FOps) (areas weights : List ℚ) : Nat → Nat → ℚ → ℚ
  | 0, _, Accum => Accum
  | n + 1, i, Accum =>
      tailLoopC ops areas weights n (i + 1)
        (ops.add Accum (ops.mul (areas.getD i 0) (weights.getD i 0)))

/-- `CornerAreaCollector`: the reduction engine in weighted (FMA) mode over
the collector's parallel `areas`/`weights` arrays (size is
`collector.areas.size()`, as in the source). -/
def CornerAreaCollector (ops : FOps) (collector : CornerCollector) : ℚ :=
  let areas := collector.areas
  let weights := collector.weights
  let size := areas.length
  let acc := bulkLoopC ops areas weights (size / 64) 0 zeroAcc8
  let i1 := 64 * (size / 64)
  let sum0 := combine8 (vadd8 ops) acc.s0 acc.s1 acc.s2 acc.s3 acc.s4 acc.s5 acc.s6 acc.s7
  let sum0 := rem8LoopC ops areas weights ((size - i1) / 8) i1 sum0
  let i2 := i1 + 8 * ((size - i1) / 8)
  let Accum := horizontalSum ops sum0
  tailLoopC ops areas weights (size - i2) i2 Accum

/-! ## Helper lemmas -/

theorem foldl_add_eq (g : α → ℚ) : ∀ (xs : List α) (a : ℚ),
    List.foldl (fun Accum x => Accum + g x) a xs = a + ((xs.map g)).sum := by
  intro xs
  induction xs with
  | nil => intro a; simp
  | cons x xs ih => intro a; simp only [List.foldl_cons, List.map_cons, List.sum_cons, ih]; ring

theorem foldl_add_congr (g1 g2 : α → ℚ) : ∀ (xs : List α) (a : ℚ),
    (∀ x ∈ xs, g1 x = g2 x) →
    List.foldl (fun Accum x => Accum + g1 x) a xs
      = List.foldl (fun Accum x => Accum + g2 x) a xs := by
  intro xs
  induction xs with
  | nil => intro a _; rfl
  | cons x xs ih =>
      intro a h
      simp only [List.foldl_cons]
      rw [h x (by simp), ih _ (fun y hy => h y (by simp [hy]))]

theorem loop4_sum (g : α → ℚ) : ∀ (n : Nat) (xs : List α) (A0 A1 A2 A3 : ℚ),
    4 * n ≤ xs.length →
    (loop4 exactOps g n xs (A0, A1, A2, A3)).1
      + (loop4 exactOps g n xs (A0, A1, A2, A3)).2.1
      + (loop4 exactOps g n xs (A0, A1, A2, A3)).2.2.1
      + (loop4 exactOps g n xs (A0, A1, A2, A3)).2.2.2
    = A0 + A1 + A2 + A3 + ((xs.take (4 * n)).map g).sum := by
  intro n
  induction n with
  | zero => intro xs A0 A1 A2 A3 _; simp [loop4]
  | succ n ih =>
      intro xs A0 A1 A2 A3 h
      rcases xs with _ | ⟨x0, _ | ⟨x1, _ | ⟨x2, _ | ⟨x3, rest⟩⟩⟩⟩
      · simp at h
      · simp at h; omega
      · simp at h; omega
      · simp at h; omega
      · have hlen : 4 * n ≤ rest.length := by simp at h; omega
        have step : loop4 exactOps g (n + 1) (x0 :: x1 :: x2 :: x3 :: rest) (A0, A1, A2, A3)
            = loop4 exactOps g n rest (A0 + g x0, A1 + g x1, A2 + g x2, A3 + g x3) := rfl
        rw [step, ih rest _ _ _ _ hlen]
        rw [show 4 * (n + 1) = (((4 * n + 1) + 1) + 1) + 1 by ring]
        simp only [List.take_succ_cons, List.map_cons, List.sum_cons]
        ring

theorem fourWay_eq_oneWay_take (g : α → ℚ) (xs : List α) :
    (let r := loop4 exactOps g (xs.length / 4) xs (0, 0, 0, 0)
     exactOps.add (exactOps.add (exactOps.add r.1 r.2.1) r.2.2.1) r.2.2.2)
    = List.foldl (fun Accum x => exactOps.add Accum (g x)) 0 (xs.take (4 * (xs.length / 4))) := by
  show (loop4 exactOps g (xs.length / 4) xs (0, 0, 0, 0)).1
      + (loop4 exactOps g (xs.length / 4) xs (0, 0, 0, 0)).2.1
      + (loop4 exactOps g (xs.length / 4) xs (0, 0, 0, 0)).2.2.1
      + (loop4 exactOps g (xs.length / 4) xs (0, 0, 0, 0)).2.2.2
    = List.foldl (fun Accum x => Accum + g x) 0 (xs.take (4 * (xs.length / 4)))
  have h4 : 4 * (xs.length / 4) ≤ xs.length := by
    have := Nat.div_mul_le_self xs.length 4
    omega
  rw [loop4_sum g _ xs 0 0 0 0 h4, foldl_add_eq]
  ring

theorem addShapes_length (ops : FOps) : ∀ (ss : List shape_base) (c : CornerCollector),
    c.areas.length = c.weights.length →
    (addShapes ops c ss).areas.length = (addShapes ops c ss).weights.length := by
  intro ss
  induction ss with
  | nil => intro c h; exact h
  | cons x ss ih =>
      intro c h
      have h' : ((CornerCollector.addShape ops c x).2).areas.length
          = ((CornerCollector.addShape ops c x).2).weights.length := by
        simp [CornerCollector.addShape, h]
      exact ih _ h'

/-! ## The claims -/

/-- Claim C1: for every shape with non-negative binary32 parameters (and,
for Square and Circle, both stored parameters equal to the single defining
measurement), the per-shape Area produced by the polymorphic, switch and
table strategies, and the CornerCount produced by the polymorphic and
switch strategies, are identical binary32 / u32 values. -/
theorem c1_area_cornerCount_bitwise_agreement (w h : ℚ) (oob : Nat → ℚ)
    (_hw0 : 0 ≤ w) (_hh0 : 0 ≤ h) (hw : Repr32 w) (_hh : Repr32 h) :
    (shape_base.Area f32Ops (.square w) = GetAreaSwitch f32Ops ⟨0, w, w⟩
      ∧ GetAreaSwitch f32Ops ⟨0, w, w⟩ = GetAreaUnion f32Ops oob ⟨0, w, w⟩
      ∧ shape_base.CornerCount (.square w) = GetCornerCountSwitch 0)
    ∧ (shape_base.Area f32Ops (.rectangle w h) = GetAreaSwitch f32Ops ⟨1, w, h⟩
      ∧ GetAreaSwitch f32Ops ⟨1, w, h⟩ = GetAreaUnion f32Ops oob ⟨1, w, h⟩
      ∧ shape_base.CornerCount (.rectangle w h) = GetCornerCountSwitch 1)
    ∧ (shape_base.Area f32Ops (.triangle w h) = GetAreaSwitch f32Ops ⟨2, w, h⟩
      ∧ GetAreaSwitch f32Ops ⟨2, w, h⟩ = GetAreaUnion f32Ops oob ⟨2, w, h⟩
      ∧ shape_base.CornerCount (.triangle w h) = GetCornerCountSwitch 2)
    ∧ (shape_base.Area f32Ops (.circle w) = GetAreaSwitch f32Ops ⟨3, w, w⟩
      ∧ GetAreaSwitch f32Ops ⟨3, w, w⟩ = GetAreaUnion f32Ops oob ⟨3, w, w⟩
      ∧ shape_base.CornerCount (.circle w) = GetCornerCountSwitch 3) := by
  refine ⟨⟨rfl, ?_, rfl⟩, ⟨rfl, ?_, rfl⟩, ⟨rfl, rfl, rfl⟩, ⟨rfl, rfl, rfl⟩⟩
  · show rnd32 (w * w) = rnd32 (rnd32 (1 * w) * w)
    rw [one_mul, hw]
  · show rnd32 (w * h) = rnd32 (rnd32 (1 * w) * h)
    rw [one_mul, hw]

/-- Witness for C1 at w = 3, h = 2 (non-negative binary32 values). -/
theorem c1_witness :
    ((0 : ℚ) ≤ 3 ∧ (0 : ℚ) ≤ 2 ∧ Repr32 3 ∧ Repr32 2)
    ∧ ((shape_base.Area f32Ops (.square 3) = GetAreaSwitch f32Ops ⟨0, 3, 3⟩
      ∧ GetAreaSwitch f32Ops ⟨0, 3, 3⟩ = GetAreaUnion f32Ops (fun _ => 0) ⟨0, 3, 3⟩
      ∧ shape_base.CornerCount (.square 3) = GetCornerCountSwitch 0)
    ∧ (shape_base.Area f32Ops (.rectangle 3 2) = GetAreaSwitch f32Ops ⟨1, 3, 2⟩
      ∧ GetAreaSwitch f32Ops ⟨1, 3, 2⟩ = GetAreaUnion f32Ops (fun _ => 0) ⟨1, 3, 2⟩
      ∧ shape_base.CornerCount (.rectangle 3 2) = GetCornerCountSwitch 1)
    ∧ (shape_base.Area f32Ops (.triangle 3 2) = GetAreaSwitch f32Ops ⟨2, 3, 2⟩
      ∧ GetAreaSwitch f32Ops ⟨2, 3, 2⟩ = GetAreaUnion f32Ops (fun _ => 0) ⟨2, 3, 2⟩
      ∧ shape_base.CornerCount (.triangle 3 2) = GetCornerCountSwitch 2)
    ∧ (shape_base.Area f32Ops (.circle 3) = GetAreaSwitch f32Ops ⟨3, 3, 3⟩
      ∧ GetAreaSwitch f32Ops ⟨3, 3, 3⟩ = GetAreaUnion f32Ops (fun _ => 0) ⟨3, 3, 3⟩
      ∧ shape_base.CornerCount (.circle 3) = GetCornerCountSwitch 3)) :=
  ⟨⟨by decide, by decide, by decide, by decide⟩,
   c1_area_cornerCount_bitwise_agreement 3 2 (fun _ => 0)
     (by decide) (by decide) (by decide) (by decide)⟩

/-- Claim C2: each 1-way CornerArea operation is the left fold, over the
shape list, of per-shape contributions equal to Area(shape) divided by
(1 + CornerCount(shape)) — an exact-arithmetic identity (the code computes
the algebraically equal form (1/(1+CornerCount))·Area; the spec states
cross-strategy floating-point agreement only within tolerance).  For the
table strategy the tags must be in range, else the coefficient lookup is an
out-of-bounds read. -/
theorem c2_cornerArea_is_weighted_fold (shapes : List shape_base)
    (us : List shape_union) (oob : Nat → ℚ) (hv : ∀ u ∈ us, u.TypeTag < 4) :
    CornerAreaVTBL exactOps shapes
      = List.foldl
          (fun Accum s => Accum + shape_base.Area exactOps s / (1 + (shape_base.CornerCount s : ℚ)))
          0 shapes
    ∧ CornerAreaSwitch exactOps us
      = List.foldl
          (fun Accum u => Accum + GetAreaSwitch exactOps u / (1 + (GetCornerCountSwitch u.TypeTag : ℚ)))
          0 us
    ∧ CornerAreaUnion exactOps oob us
      = List.foldl
          (fun Accum u => Accum + GetAreaUnion exactOps oob u / (1 + (GetCornerCountSwitch u.TypeTag : ℚ)))
          0 us := by
  refine ⟨?_, ?_, ?_⟩
  · exact foldl_add_congr
      (cornerContribVTBL exactOps)
      (fun s => shape_base.Area exactOps s / (1 + (shape_base.CornerCount s : ℚ)))
      shapes 0
      (fun s _ => by
        show 1 / (1 + (shape_base.CornerCount s : ℚ)) * shape_base.Area exactOps s = _
        rw [one_div_mul_eq_div])
  · exact foldl_add_congr
      (cornerContribSwitch exactOps)
      (fun u => GetAreaSwitch exactOps u / (1 + (GetCornerCountSwitch u.TypeTag : ℚ)))
      us 0
      (fun u _ => by
        show 1 / (1 + (GetCornerCountSwitch u.TypeTag : ℚ)) * GetAreaSwitch exactOps u = _
        rw [one_div_mul_eq_div])
  · exact foldl_add_congr
      (GetCornerAreaUnion exactOps oob)
      (fun u => GetAreaUnion exactOps oob u / (1 + (GetCornerCountSwitch u.TypeTag : ℚ)))
      us 0
      (fun u hu => by
        have ht : u.TypeTag < 4 := hv u hu
        obtain ⟨t, W, H⟩ := u
        interval_cases t <;>
          simp [GetCornerAreaUnion, GetAreaUnion, CornerAreaCTable, AreaCTable,
            GetCornerCountSwitch, exactOps] <;> ring)

/-- Witness for C2 on the one-element lists Square(3) and the matching
tagged record. -/
theorem c2_witness :
    (∀ u ∈ [({ TypeTag := 0, Width := 3, Height := 3 } : shape_union)], u.TypeTag < 4)
    ∧ (CornerAreaVTBL exactOps [.square 3]
      = List.foldl
          (fun Accum s => Accum + shape_base.Area exactOps s / (1 + (shape_base.CornerCount s : ℚ)))
          0 [.square 3]
    ∧ CornerAreaSwitch exactOps [⟨0, 3, 3⟩]
      = List.foldl
          (fun Accum u => Accum + GetAreaSwitch exactOps u / (1 + (GetCornerCountSwitch u.TypeTag : ℚ)))
          0 [⟨0, 3, 3⟩]
    ∧ CornerAreaUnion exactOps (fun _ => 0) [⟨0, 3, 3⟩]
      = List.foldl
          (fun Accum u =>
            Accum + GetAreaUnion exactOps (fun _ => 0) u / (1 + (GetCornerCountSwitch u.TypeTag : ℚ)))
          0 [⟨0, 3, 3⟩]) :=
  ⟨by decide,
   c2_cornerArea_is_weighted_fold [.square 3] [⟨0, 3, 3⟩] (fun _ => 0) (by decide)⟩

/-- Claim C3: every 4-way unrolled variant processes exactly the first
floor(N/4)*4 elements — its result equals the corresponding 1-way variant
applied to that prefix (the trailing 0–3 elements are silently dropped);
stated in the exact-arithmetic model, where reassociating the four
accumulators into one running sum is sound. -/
theorem c3_fourWay_drop_tail (shapes : List shape_base) (us : List shape_union) (oob : Nat → ℚ) :
    TotalAreaVTBL4 exactOps shapes
      = TotalAreaVTBL exactOps (shapes.take (4 * (shapes.length / 4)))
    ∧ CornerAreaVTBL4 exactOps shapes
      = CornerAreaVTBL exactOps (shapes.take (4 * (shapes.length / 4)))
    ∧ TotalAreaSwitch4 exactOps us
      = TotalAreaSwitch exactOps (us.take (4 * (us.length / 4)))
    ∧ CornerAreaSwitch4 exactOps us
      = CornerAreaSwitch exactOps (us.take (4 * (us.length / 4)))
    ∧ TotalAreaUnion4 exactOps oob us
      = TotalAreaUnion exactOps oob (us.take (4 * (us.length / 4)))
    ∧ CornerAreaUnion4 exactOps oob us
      = CornerAreaUnion exactOps oob (us.take (4 * (us.length / 4))) :=
  ⟨fourWay_eq_oneWay_take (shape_base.Area exactOps) shapes,
   fourWay_eq_oneWay_take (cornerContribVTBL exactOps) shapes,
   fourWay_eq_oneWay_take (GetAreaSwitch exactOps) us,
   fourWay_eq_oneWay_take (cornerContribSwitch exactOps) us,
   fourWay_eq_oneWay_take (GetAreaUnion exactOps oob) us,
   fourWay_eq_oneWay_take (GetCornerAreaUnion exactOps oob) us⟩

/-- Counterexample to claim C4 as stated: for a record with the out-of-range
tag 4, the table strategy's area is not a defensive 0.0 — it is determined
by whatever the out-of-bounds read `AreaCTable[Type]` happens to yield
(undefined behavior): if that read yields 1 the area is 1, not 0. -/
theorem c4_counterexample :
    GetAreaUnion f32Ops (fun _ => 1) ⟨4, 1, 1⟩ = 1
    ∧ ¬GetAreaUnion f32Ops (fun _ => 1) ⟨4, 1, 1⟩ = 0 := by decide

/-- Claim C4 (amended): for every record whose tag is outside {0,1,2,3},
the SWITCH strategy gives a zero contribution (zero area, zero corner
count, hence zero corner-area contribution) rather than raising an error;
the TABLE strategy has no such default — its result is an out-of-bounds
table read (undefined behavior), shown by two admissible read outcomes
yielding different areas. -/
theorem c4_amended_switch_zero_default_table_oob (s : shape_union) (h4 : 4 ≤ s.TypeTag) :
    GetAreaSwitch f32Ops s = 0
    ∧ GetCornerCountSwitch s.TypeTag = 0
    ∧ cornerContribSwitch f32Ops s = 0
    ∧ GetAreaUnion f32Ops (fun _ => 1) ⟨4, 1, 1⟩ ≠ GetAreaUnion f32Ops (fun _ => 0) ⟨4, 1, 1⟩ := by
  obtain ⟨t, W, H⟩ := s
  have h4t : 4 ≤ t := h4
  obtain ⟨k, rfl⟩ : ∃ k, t = k + 4 := ⟨t - 4, by omega⟩
  refine ⟨rfl, rfl, ?_, by decide⟩
  show f32Ops.mul (f32Ops.div 1 (f32Ops.add 1 (f32Ops.ofNat 0))) 0 = 0
  decide

/-- Witness for the amended C4 at the record {Type = 5, Width = 2, Height = 3}. -/
theorem c4_witness :
    4 ≤ (⟨5, 2, 3⟩ : shape_union).TypeTag
    ∧ (GetAreaSwitch f32Ops ⟨5, 2, 3⟩ = 0
    ∧ GetCornerCountSwitch (⟨5, 2, 3⟩ : shape_union).TypeTag = 0
    ∧ cornerContribSwitch f32Ops ⟨5, 2, 3⟩ = 0
    ∧ GetAreaUnion f32Ops (fun _ => 1) ⟨4, 1, 1⟩ ≠ GetAreaUnion f32Ops (fun _ => 0) ⟨4, 1, 1⟩) :=
  ⟨by decide, c4_amended_switch_zero_default_table_oob ⟨5, 2, 3⟩ (by decide)⟩

/-- Counterexample to claim C5 as stated: the engine's combine step does
not sum adjacent accumulator pairs in its first stage.  Interpreting the
addition symbolically as list concatenation over singleton leaf labels, the
source's combine order yields leaf order [0,4,1,5,2,6,3,7] while the
claimed adjacent-pair order yields [0,1,2,3,4,5,6,7]. -/
theorem c5_counterexample :
    combine8 (fun a b : List Nat => a ++ b) [0] [1] [2] [3] [4] [5] [6] [7]
      ≠ combine8Adjacent (fun a b : List Nat => a ++ b) [0] [1] [2] [3] [4] [5] [6] [7] := by
  decide

/-- Claim C5 (amended): the combine step after the bulk loop reduces
8→4→2→1, but its first stage sums the stride-4 pairs (Accum0+Accum4),
(Accum1+Accum5), (Accum2+Accum6), (Accum3+Accum7); the remaining stages sum
adjacent pairs.  In exact arithmetic the engine's combined value equals the
sum computed in the claimed adjacent-pair order. -/
theorem c5_amended_combine_exact (a0 a1 a2 a3 a4 a5 a6 a7 : ℚ) :
    combine8 (· + ·) a0 a1 a2 a3 a4 a5 a6 a7
      = combine8Adjacent (· + ·) a0 a1 a2 a3 a4 a5 a6 a7 := by
  simp only [combine8, combine8Adjacent]
  ring

set_option maxRecDepth 100000 in
/-- Claim C6: the Reduction Engine's plain-sum mode over a collector whose
areas array holds 65 elements equal to 1.0 returns exactly the binary32
value 65.0 (one full 64-element batch, no 8-element remainder, one scalar
tail element; every intermediate value is a small integer, exactly
representable, so the binary32 result is exact).  The proof evaluates the
engine stage by stage — bulk accumulators, combine, horizontal sum, scalar
tail — each step on concrete literal values. -/
theorem c6_engine_65_ones : TotalAreaCollector f32Ops ⟨List.replicate 65 1⟩ = 65 := by
  have hs0 : (bulkLoopT f32Ops (List.replicate 65 1) 1 0 zeroAcc8).s0 = ⟨1, 1, 1, 1, 1, 1, 1, 1⟩ := by
    decide
  have hs1 : (bulkLoopT f32Ops (List.replicate 65 1) 1 0 zeroAcc8).s1 = ⟨1, 1, 1, 1, 1, 1, 1, 1⟩ := by
    decide
  have hs2 : (bulkLoopT f32Ops (List.replicate 65 1) 1 0 zeroAcc8).s2 = ⟨1, 1, 1, 1, 1, 1, 1, 1⟩ := by
    decide
  have hs3 : (bulkLoopT f32Ops (List.replicate 65 1) 1 0 zeroAcc8).s3 = ⟨1, 1, 1, 1, 1, 1, 1, 1⟩ := by
    decide
  have hs4 : (bulkLoopT f32Ops (List.replicate 65 1) 1 0 zeroAcc8).s4 = ⟨1, 1, 1, 1, 1, 1, 1, 1⟩ := by
    decide
  have hs5 : (bulkLoopT f32Ops (List.replicate 65 1) 1 0 zeroAcc8).s5 = ⟨1, 1, 1, 1, 1, 1, 1, 1⟩ := by
    decide
  have hs6 : (bulkLoopT f32Ops (List.replicate 65 1) 1 0 zeroAcc8).s6 = ⟨1, 1, 1, 1, 1, 1, 1, 1⟩ := by
    decide
  have hs7 : (bulkLoopT f32Ops (List.replicate 65 1) 1 0 zeroAcc8).s7 = ⟨1, 1, 1, 1, 1, 1, 1, 1⟩ := by
    decide
  have hcomb :
      combine8 (vadd8 f32Ops) ⟨1, 1, 1, 1, 1, 1, 1, 1⟩ ⟨1, 1, 1, 1, 1, 1, 1, 1⟩
        ⟨1, 1, 1, 1, 1, 1, 1, 1⟩ ⟨1, 1, 1, 1, 1, 1, 1, 1⟩ ⟨1, 1, 1, 1, 1, 1, 1, 1⟩
        ⟨1, 1, 1, 1, 1, 1, 1, 1⟩ ⟨1, 1, 1, 1, 1, 1, 1, 1⟩ ⟨1, 1, 1, 1, 1, 1, 1, 1⟩
      = ⟨8, 8, 8, 8, 8, 8, 8, 8⟩ := by decide
  have hrem : rem8LoopT f32Ops (List.replicate 65 1) 0 64 (⟨8, 8, 8, 8, 8, 8, 8, 8⟩ : V8)
      = ⟨8, 8, 8, 8, 8, 8, 8, 8⟩ := rfl
  have hhsum : horizontalSum f32Ops ⟨8, 8, 8, 8, 8, 8, 8, 8⟩ = 64 := by decide
  have htail : tailLoopT f32Ops (List.replicate 65 1) 1 64 64 = 65 := by decide
  show tailLoopT f32Ops (List.replicate 65 1) 1 64
      (horizontalSum f32Ops
        (rem8LoopT f32Ops (List.replicate 65 1) 0 64
          (combine8 (vadd8 f32Ops)
            (bulkLoopT f32Ops (List.replicate 65 1) 1 0 zeroAcc8).s0
            (bulkLoopT f32Ops (List.replicate 65 1) 1 0 zeroAcc8).s1
            (bulkLoopT f32Ops (List.replicate 65 1) 1 0 zeroAcc8).s2
            (bulkLoopT f32Ops (List.replicate 65 1) 1 0 zeroAcc8).s3
            (bulkLoopT f32Ops (List.replicate 65 1) 1 0 zeroAcc8).s4
            (bulkLoopT f32Ops (List.replicate 65 1) 1 0 zeroAcc8).s5
            (bulkLoopT f32Ops (List.replicate 65 1) 1 0 zeroAcc8).s6
            (bulkLoopT f32Ops (List.replicate 65 1) 1 0 zeroAcc8).s7))) = 65
  rw [hs0, hs1, hs2, hs3, hs4, hs5, hs6, hs7, hcomb, hrem, hhsum]
  exact htail

/-- Claim C7: the Reduction Engine returns exactly 0.0 on empty input in
both modes (`TotalAreaCollector` over an empty areas array,
`CornerAreaCollector` over empty areas/weights arrays): every loop runs
zero iterations and combining and horizontally reducing the zeroed
accumulators is exact. -/
theorem c7_engine_empty :
    TotalAreaCollector f32Ops ⟨[]⟩ = 0 ∧ CornerAreaCollector f32Ops ⟨[], []⟩ = 0 := by
  have hcomb : combine8 (vadd8 f32Ops) zero8 zero8 zero8 zero8 zero8 zero8 zero8 zero8
      = zero8 := by decide
  have hhsum : horizontalSum f32Ops zero8 = 0 := by decide
  constructor
  · have hb0 : (bulkLoopT f32Ops [] 0 0 zeroAcc8).s0 = zero8 := rfl
    have hb1 : (bulkLoopT f32Ops [] 0 0 zeroAcc8).s1 = zero8 := rfl
    have hb2 : (bulkLoopT f32Ops [] 0 0 zeroAcc8).s2 = zero8 := rfl
    have hb3 : (bulkLoopT f32Ops [] 0 0 zeroAcc8).s3 = zero8 := rfl
    have hb4 : (bulkLoopT f32Ops [] 0 0 zeroAcc8).s4 = zero8 := rfl
    have hb5 : (bulkLoopT f32Ops [] 0 0 zeroAcc8).s5 = zero8 := rfl
    have hb6 : (bulkLoopT f32Ops [] 0 0 zeroAcc8).s6 = zero8 := rfl
    have hb7 : (bulkLoopT f32Ops [] 0 0 zeroAcc8).s7 = zero8 := rfl
    have hrem : rem8LoopT f32Ops [] 0 0 zero8 = zero8 := rfl
    show tailLoopT f32Ops [] 0 0
        (horizontalSum f32Ops
          (rem8LoopT f32Ops [] 0 0
            (combine8 (vadd8 f32Ops)
              (bulkLoopT f32Ops [] 0 0 zeroAcc8).s0 (bulkLoopT f32Ops [] 0 0 zeroAcc8).s1
              (bulkLoopT f32Ops [] 0 0 zeroAcc8).s2 (bulkLoopT f32Ops [] 0 0 zeroAcc8).s3
              (bulkLoopT f32Ops [] 0 0 zeroAcc8).s4 (bulkLoopT f32Ops [] 0 0 zeroAcc8).s5
              (bulkLoopT f32Ops [] 0 0 zeroAcc8).s6 (bulkLoopT f32Ops [] 0 0 zeroAcc8).s7))) = 0
    rw [hb0, hb1, hb2, hb3, hb4, hb5, hb6, hb7, hcomb, hrem, hhsum]
    rfl
  · have hb0 : (bulkLoopC f32Ops [] [] 0 0 zeroAcc8).s0 = zero8 := rfl
    have hb1 : (bulkLoopC f32Ops [] [] 0 0 zeroAcc8).s1 = zero8 := rfl
    have hb2 : (bulkLoopC f32Ops [] [] 0 0 zeroAcc8).s2 = zero8 := rfl
    have hb3 : (bulkLoopC f32Ops [] [] 0 0 zeroAcc8).s3 = zero8 := rfl
    have hb4 : (bulkLoopC f32Ops [] [] 0 0 zeroAcc8).s4 = zero8 := rfl
    have hb5 : (bulkLoopC f32Ops [] [] 0 0 zeroAcc8).s5 = zero8 := rfl
    have hb6 : (bulkLoopC f32Ops [] [] 0 0 zeroAcc8).s6 = zero8 := rfl
    have hb7 : (bulkLoopC f32Ops [] [] 0 0 zeroAcc8).s7 = zero8 := rfl
    have hrem : rem8LoopC f32Ops [] [] 0 0 zero8 = zero8 := rfl
    show tailLoopC f32Ops [] [] 0 0
        (horizontalSum f32Ops
          (rem8LoopC f32Ops [] [] 0 0
            (combine8 (vadd8 f32Ops)
              (bulkLoopC f32Ops [] [] 0 0 zeroAcc8).s0 (bulkLoopC f32Ops [] [] 0 0 zeroAcc8).s1
              (bulkLoopC f32Ops [] [] 0 0 zeroAcc8).s2 (bulkLoopC f32Ops [] [] 0 0 zeroAcc8).s3
              (bulkLoopC f32Ops [] [] 0 0 zeroAcc8).s4 (bulkLoopC f32Ops [] [] 0 0 zeroAcc8).s5
              (bulkLoopC f32Ops [] [] 0 0 zeroAcc8).s6 (bulkLoopC f32Ops [] [] 0 0 zeroAcc8).s7))) = 0
    rw [hb0, hb1, hb2, hb3, hb4, hb5, hb6, hb7, hcomb, hrem, hhsum]
    rfl

/-- Claim C8: `CornerCollector::addShape` appends exactly one element to
`areas` and one to `weights`, so after any sequence of addShape calls
starting from a state with equally long arrays (such as the initial empty
state), areas.length = weights.length keeps holding. -/
theorem c8_parallel_lengths (ops : FOps) (c : CornerCollector) (s : shape_base)
    (ss : List shape_base) (h : c.areas.length = c.weights.length) :
    (CornerCollector.addShape ops c s).2.areas.length = c.areas.length + 1
    ∧ (CornerCollector.addShape ops c s).2.weights.length = c.weights.length + 1
    ∧ (addShapes ops c ss).areas.length = (addShapes ops c ss).weights.length :=
  ⟨by simp [CornerCollector.addShape],
   by simp [CornerCollector.addShape],
   addShapes_length ops ss c h⟩

/-- Witness for C8: the empty collector, one further shape, and a
two-element call sequence. -/
theorem c8_witness :
    (⟨[], []⟩ : CornerCollector).areas.length = (⟨[], []⟩ : CornerCollector).weights.length
    ∧ ((CornerCollector.addShape f32Ops ⟨[], []⟩ (.square 1)).2.areas.length
        = (⟨[], []⟩ : CornerCollector).areas.length + 1
    ∧ (CornerCollector.addShape f32Ops ⟨[], []⟩ (.square 1)).2.weights.length
        = (⟨[], []⟩ : CornerCollector).weights.length + 1
    ∧ (addShapes f32Ops ⟨[], []⟩ [.square 1, .circle 2]).areas.length
        = (addShapes f32Ops ⟨[], []⟩ [.square 1, .circle 2]).weights.length) :=
  ⟨rfl, c8_parallel_lengths f32Ops ⟨[], []⟩ (.square 1) [.square 1, .circle 2] rfl⟩

/-- Claim C9: `addShape` on both collectors returns the very shape value it
was given, unchanged (pass-through), and its only state effect is appending
one element to the collector's arrays (the area, and for the corner-aware
collector also the precomputed weight). -/
theorem c9_addShape_passthrough (ops : FOps) (ac : AreaCollector) (cc : CornerCollector)
    (s : shape_base) :
    (AreaCollector.addShape ops ac s).1 = s
    ∧ (AreaCollector.addShape ops ac s).2.areas = ac.areas ++ [shape_base.Area ops s]
    ∧ (CornerCollector.addShape ops cc s).1 = s
    ∧ (CornerCollector.addShape ops cc s).2.areas = cc.areas ++ [shape_base.Area ops s]
    ∧ (CornerCollector.addShape ops cc s).2.weights
        = cc.weights ++ [ops.div 1 (ops.add 1 (ops.ofNat (shape_base.CornerCount s)))] :=
  ⟨rfl, rfl, rfl, rfl, rfl⟩

/-- Claim C10: for records tagged Square or Circle, `GetAreaSwitch` uses
Width twice and ignores Height — two such records agreeing on Width yield
the same switch-strategy area even if their Heights differ — whereas
`GetAreaUnion` multiplies Width by Height, so the two strategies diverge on
records violating the Width = Height convention (e.g. a Square record with
Width 1, Height 2: switch area 1, table area 2). -/
theorem c10_switch_height_noninterference (s1 s2 : shape_union) (oob : Nat → ℚ)
    (htag : s1.TypeTag = 0 ∨ s1.TypeTag = 3)
    (ht2 : s2.TypeTag = s1.TypeTag) (hW : s2.Width = s1.Width) :
    GetAreaSwitch f32Ops s1 = GetAreaSwitch f32Ops s2
    ∧ GetAreaSwitch f32Ops ⟨0, 1, 2⟩ ≠ GetAreaUnion f32Ops oob ⟨0, 1, 2⟩ := by
  constructor
  · obtain ⟨t1, W1, H1⟩ := s1
    obtain ⟨t2, W2, H2⟩ := s2
    simp only at htag ht2 hW
    subst ht2 hW
    rcases htag with rfl | rfl <;> simp only [GetAreaSwitch]
  · simp only [GetAreaSwitch, GetAreaUnion, AreaCTable, f32Ops]
    decide

/-- Witness for C10: two Square records of Width 1 with Heights 5 and 7. -/
theorem c10_witness :
    ((⟨0, 1, 5⟩ : shape_union).TypeTag = 0 ∨ (⟨0, 1, 5⟩ : shape_union).TypeTag = 3)
    ∧ (⟨0, 1, 7⟩ : shape_union).TypeTag = (⟨0, 1, 5⟩ : shape_union).TypeTag
    ∧ (⟨0, 1, 7⟩ : shape_union).Width = (⟨0, 1, 5⟩ : shape_union).Width
    ∧ (GetAreaSwitch f32Ops ⟨0, 1, 5⟩ = GetAreaSwitch f32Ops ⟨0, 1, 7⟩
    ∧ GetAreaSwitch f32Ops ⟨0, 1, 2⟩ ≠ GetAreaUnion f32Ops (fun _ => 0) ⟨0, 1, 2⟩) :=
  ⟨Or.inl rfl, rfl, rfl,
   c10_switch_height_noninterference ⟨0, 1, 5⟩ ⟨0, 1, 7⟩ (fun _ => 0) (Or.inl rfl) rfl rfl⟩
